import Mathlib

/-!
Shallow embedding of the `nav_tree` module of `src/main.rs`
(an iced-based file-system browser).

The filesystem is modelled as an immutable snapshot `Fs`; the synchronous
queries `Path::is_dir` / `Path::is_file` and the reads `fs::read_dir` /
`fs::read_to_string` performed by the source become fields of `Fs`.
Paths are modelled as strings (`PathBuf` carries no structure the core
logic inspects).  `Vec<T>` becomes `List T`.  Rust's `entries.sort()` is a
stable sort ascending by `Ord`; it is modelled by the stable
`List.insertionSort` over the reflexive closure of that order, which
produces the same list for any total transitive comparison.
-/

namespace nav_tree

/-- Model of `iced::button::State` (opaque UI bookkeeping, no fields). -/
structure ButtonState where

/-- Model of `button::State::new()`. -/
def ButtonState.new : ButtonState := {}

/-- Model of `iced::scrollable::State` (opaque UI bookkeeping, no fields). -/
structure ScrollState where

/-- Model of `scrollable::State::new()`. -/
def ScrollState.new : ScrollState := {}

/-- Snapshot of the filesystem as the source queries it.
`read_dir p` is `none` when `fs::read_dir(&p)` fails; otherwise it is the
iterator of children, each item `none` when that `ReadDir` item was an
`Err` (skipped by `.flatten()` in the source) and `some (path, name)`
when it was `Ok` (with `entry.path()` and `entry.file_name()` stringified). -/
structure Fs where
  isDir : String → Bool
  isFile : String → Bool
  readDir : String → Option (List (Option (String × String)))
  read_to_string : String → Option String

/-- The `Entry` enum of the source: a directory child, either a file or a
subdirectory, with its full path and bare name. -/
inductive Entry
  | File (path : String) (name : String)
  | Directory (path : String) (name : String)
deriving DecidableEq, Repr

/-- Lexicographic three-way comparison of character lists, the semantics
of Rust's `String::cmp` (byte-wise UTF-8 comparison coincides with
codepoint-wise comparison). -/
def lexCmp : List Char → List Char → Ordering
  | [], [] => .eq
  | [], _ :: _ => .lt
  | _ :: _, [] => .gt
  | a :: as, b :: bs =>
    if a < b then .lt else if b < a then .gt else lexCmp as bs

/-- Rust `String` comparison (`a.cmp(b)`): lexicographic order on the
characters. -/
def nameCmp (a b : String) : Ordering :=
  lexCmp a.data b.data

/-- The `impl Ord for Entry` of the source: directories before files,
names compared within a variant. -/
def Entry.cmp : Entry → Entry → Ordering
  | .Directory _ _, .File _ _ => .lt
  | .File _ _, .Directory _ _ => .gt
  | .File _ a, .File _ b => nameCmp a b
  | .Directory _ a, .Directory _ b => nameCmp a b

/-- Non-strict order induced by `Entry.cmp`, as used by `entries.sort()`:
`a` may precede `b` exactly when `a.cmp(b) != Greater`. -/
def entryLe (a b : Entry) : Prop := Entry.cmp a b ≠ Ordering.gt

instance : DecidableRel entryLe := fun a b =>
  inferInstanceAs (Decidable (Entry.cmp a b ≠ Ordering.gt))

/-- The `Message` enum of the source's `nav_tree` module. -/
inductive Message
  | ChangeDirectory (path : String)
  | DirectoryRead (result : Option (String × List Entry))
  | ReadFile (path : String)
  | FileRead (result : Option (String × String))
  | RefreshDirectory

/-- The `Event` enum of the source: the one external event emitted to the
owning application. -/
inductive Event
  | FileRead (path : String) (content : String)

/-- The `State` enum of the source: the navigation state machine. -/
inductive State
  | Loading (path : String)
  | Loaded (directory : String) (entries : List Entry)
      (entry_buttons : List ButtonState) (up_button : ButtonState)
      (scrollable : ScrollState)

/-- Model of `iced::Command` as returned by `State::update`: which
asynchronous task, if any, is scheduled.  `performReadDirectory p` stands
for `Command::perform(self.read_directory(p), ...)` and
`performReadFile p` for `Command::perform(self.read_file(p), ...)`. -/
inductive Cmd
  | none
  | performReadDirectory (path : String)
  | performReadFile (path : String)
deriving DecidableEq

/-- The async `read_directory` of the source: open the directory (failure
gives `None`), iterate the children skipping `Err` items (`.flatten()`),
classify each child by `is_file()` / `is_dir()` pushing an `Entry` (a child
that is neither is pushed nowhere), sort, and return the input path with
the sorted entries. -/
def read_directory (fs : Fs) (path : String) : Option (String × List Entry) :=
  match fs.readDir path with
  | none => none
  | some items =>
    let entries := (items.filterMap id).foldl
      (fun acc c =>
        if fs.isFile c.1 then acc ++ [Entry.File c.1 c.2]
        else if fs.isDir c.1 then acc ++ [Entry.Directory c.1 c.2]
        else acc) []
    some (path, List.insertionSort entryLe entries)

/-- The async `read_file` of the source: `fs::read_to_string`, failure
gives `None`, success pairs the input path with the contents. -/
def read_file (fs : Fs) (path : String) : Option (String × String) :=
  match fs.read_to_string path with
  | none => none
  | some contents => some (path, contents)

/-- The `State::update` of the source, returning the next state together
with the scheduled command and the optional emitted event.  All fall-through
paths return `(Command::none(), None)` with the state untouched. -/
def State.update (fs : Fs) (s : State) (m : Message) :
    State × Cmd × Option Event :=
  match m with
  | .ChangeDirectory path =>
    if fs.isDir path then (s, .performReadDirectory path, none)
    else (s, Cmd.none, none)
  | .DirectoryRead result =>
    match result with
    | some (directory, entries) =>
      (.Loaded directory entries
        (List.replicate entries.length ButtonState.new)
        ButtonState.new ScrollState.new, Cmd.none, none)
    | none => (s, Cmd.none, none)
  | .ReadFile path =>
    if fs.isFile path then (s, .performReadFile path, none)
    else (s, Cmd.none, none)
  | .FileRead result =>
    match result with
    | some (path, content) => (s, Cmd.none, some (.FileRead path content))
    | none => (s, Cmd.none, none)
  | .RefreshDirectory =>
    match s with
    | .Loaded directory _ _ _ _ =>
      (s, .performReadDirectory directory, none)
    | .Loading _ => (s, Cmd.none, none)

/-- Spec-side ordering predicate for a pair of adjacent entries: a `File`
never precedes a `Directory`, and within the same variant names are
non-decreasing in the lexicographic order on strings. -/
def specOrd (a b : Entry) : Prop :=
  match a, b with
  | .File _ _, .Directory _ _ => False
  | .File _ na, .File _ nb => na ≤ nb
  | .Directory _ na, .Directory _ nb => na ≤ nb
  | .Directory _ _, .File _ _ => True

theorem lexCmp_eq_gt_iff : ∀ x y : List Char, lexCmp x y = Ordering.gt ↔ y < x
  | [], [] => by
    simp only [lexCmp]
    exact iff_of_false (by decide) (List.Lex.not_nil_right _ _)
  | [], _ :: _ => by
    simp only [lexCmp]
    exact iff_of_false (by decide) (List.Lex.not_nil_right _ _)
  | _ :: _, [] => by
    simp only [lexCmp]
    exact iff_of_true trivial List.Lex.nil
  | a :: as, b :: bs => by
    simp only [lexCmp]
    by_cases hab : a < b
    · rw [if_pos hab]
      refine iff_of_false (by decide) fun h => ?_
      cases h with
      | cons h => exact absurd hab (lt_irrefl a)
      | rel h => exact absurd hab (asymm h)
    · rw [if_neg hab]
      by_cases hba : b < a
      · rw [if_pos hba]
        exact iff_of_true rfl (List.Lex.rel hba)
      · rw [if_neg hba]
        have hb : a = b := le_antisymm (not_lt.mp hba) (not_lt.mp hab)
        subst hb
        rw [lexCmp_eq_gt_iff as bs]
        constructor
        · exact fun h => List.Lex.cons h
        · intro h
          cases h with
          | cons h => exact h
          | rel h => exact absurd h hba

theorem nameCmp_ne_gt_iff {a b : String} : nameCmp a b ≠ Ordering.gt ↔ a ≤ b := by
  rw [nameCmp, ne_eq, lexCmp_eq_gt_iff, String.le_iff_toList_le]
  exact not_lt

instance : IsTrans Entry entryLe := by
  constructor
  intro a b c hab hbc
  cases a <;> cases b <;> cases c <;>
    simp only [entryLe, Entry.cmp, nameCmp_ne_gt_iff] at * <;>
    first
      | trivial
      | exact le_trans hab hbc

instance : IsTotal Entry entryLe := by
  constructor
  intro a b
  cases a <;> cases b <;>
    simp only [entryLe, Entry.cmp, nameCmp_ne_gt_iff] <;>
    first
      | trivial
      | exact le_total _ _

theorem entryLe_specOrd {a b : Entry} (h : entryLe a b) : specOrd a b := by
  cases a <;> cases b <;>
    simp only [entryLe, Entry.cmp, nameCmp_ne_gt_iff, specOrd] at * <;>
    trivial

/-- Concrete filesystem snapshot used by witnesses: a directory `/r`
holding two files and a subdirectory, listed out of order. -/
def fsA : Fs where
  isDir := fun p => p == "/r" || p == "/r/sub"
  isFile := fun p => p == "/r/a.txt" || p == "/r/b.txt"
  readDir := fun p =>
    if p == "/r" then
      some [some ("/r/b.txt", "b.txt"), some ("/r/sub", "sub"),
        some ("/r/a.txt", "a.txt")]
    else none
  read_to_string := fun p => if p == "/r/a.txt" then some "hello" else none

/-- C1: whenever `read_directory` succeeds, the returned entry list is
sorted so that every `Directory` entry precedes every `File` entry, and
within each variant names are non-decreasing lexicographically. -/
theorem read_directory_sorted (fs : Fs) (p p' : String) (l : List Entry)
    (h : read_directory fs p = some (p', l)) : List.Pairwise specOrd l := by
  cases hrd : fs.readDir p with
  | none => simp [read_directory, hrd] at h
  | some items =>
    simp only [read_directory, hrd, Option.some.injEq, Prod.mk.injEq] at h
    obtain ⟨-, hl⟩ := h
    exact hl ▸
      List.Pairwise.imp (fun hab => entryLe_specOrd hab)
        (List.sorted_insertionSort entryLe _)

/-- Witness for C1: evaluating `read_directory` on the concrete snapshot
`fsA` and applying the theorem to the resulting list. -/
theorem read_directory_sorted_witness :
    List.Pairwise specOrd
      [Entry.Directory "/r/sub" "sub", Entry.File "/r/a.txt" "a.txt",
        Entry.File "/r/b.txt" "b.txt"] :=
  read_directory_sorted fsA "/r" "/r"
    [Entry.Directory "/r/sub" "sub", Entry.File "/r/a.txt" "a.txt",
      Entry.File "/r/b.txt" "b.txt"]
    (by decide)

/-- C2: on `DirectoryRead (Some ((D, E)))` the state becomes `Loaded` with
directory `D` and entries `E` whatever it was before, the per-entry button
table is rebuilt with one fresh button per entry, no command is scheduled
and no event is emitted. -/
theorem update_directory_read_some (fs : Fs) (s : State) (D : String)
    (E : List Entry) :
    State.update fs s (.DirectoryRead (some (D, E))) =
      (.Loaded D E (List.replicate E.length ButtonState.new) ButtonState.new
        ScrollState.new, Cmd.none, none) := rfl

/-- C3: on `DirectoryRead None` the state is returned untouched, no command
is scheduled and no event is emitted. -/
theorem update_directory_read_none (fs : Fs) (s : State) :
    State.update fs s (.DirectoryRead none) = (s, Cmd.none, none) := rfl

/-- C4: `ChangeDirectory P` schedules a directory read exactly when `P` is
currently a directory and `ReadFile P` schedules a file read exactly when
`P` is currently a regular file; in all four cases the state is unchanged
and no event is emitted, and a failed check schedules nothing. -/
theorem update_guards_reads (fs : Fs) (s : State) (p : String) :
    State.update fs s (.ChangeDirectory p) =
      (s, if fs.isDir p then Cmd.performReadDirectory p else Cmd.none,
        none) ∧
    State.update fs s (.ReadFile p) =
      (s, if fs.isFile p then Cmd.performReadFile p else Cmd.none, none) := by
  constructor <;> simp only [State.update] <;> split <;> rfl

/-- C5: `FileRead (Some ((P, C)))` emits exactly the event
`FileRead (P, C)` while leaving the state unchanged and scheduling
nothing; `FileRead None` emits nothing and changes nothing, so an event is
emitted if and only if the result is present. -/
theorem update_file_read (fs : Fs) (s : State) (p c : String) :
    State.update fs s (.FileRead (some (p, c))) =
      (s, Cmd.none, some (.FileRead p c)) ∧
    State.update fs s (.FileRead none) = (s, Cmd.none, none) := ⟨rfl, rfl⟩

/-- Classification of one successfully-yielded child, as the loop body of
`read_directory` performs it: a file gives a `File` entry, otherwise a
directory gives a `Directory` entry, otherwise the child yields nothing. -/
def classifyChild (fs : Fs) (c : String × String) : Option Entry :=
  if fs.isFile c.1 then some (.File c.1 c.2)
  else if fs.isDir c.1 then some (.Directory c.1 c.2)
  else none

theorem foldl_classify (fs : Fs) :
    ∀ (l : List (String × String)) (acc : List Entry),
      l.foldl
        (fun acc c =>
          if fs.isFile c.1 then acc ++ [Entry.File c.1 c.2]
          else if fs.isDir c.1 then acc ++ [Entry.Directory c.1 c.2]
          else acc) acc = acc ++ l.filterMap (classifyChild fs)
  | [], acc => by simp
  | c :: l, acc => by
    simp only [List.foldl_cons, List.filterMap_cons, classifyChild]
    split
    · rw [foldl_classify fs l, List.append_assoc]
      rfl
    · split
      · rw [foldl_classify fs l, List.append_assoc]
        rfl
      · rw [foldl_classify fs l]

/-- Empty filesystem snapshot: every query fails. -/
def fsEmpty : Fs where
  isDir := fun _ => false
  isFile := fun _ => false
  readDir := fun _ => none
  read_to_string := fun _ => none

/-- C6: `read_directory` returns `none` exactly when opening the directory
fails; otherwise it returns `some` pairing the input path itself with the
entries, even when the directory is empty of usable children. -/
theorem read_directory_total (fs : Fs) (p : String) :
    (read_directory fs p = none ↔ fs.readDir p = none) ∧
    (∀ q l, read_directory fs p = some (q, l) → q = p) ∧
    (∀ items, fs.readDir p = some items →
      ∃ l, read_directory fs p = some (p, l)) := by
  cases h : fs.readDir p <;>
    simp [read_directory, h]

/-- Witness for C6: a failing open on the empty snapshot and a successful
open on `fsA`, obtained from the theorem. -/
theorem read_directory_total_witness :
    read_directory fsEmpty "/missing" = none ∧
    ∃ l, read_directory fsA "/r" = some ("/r", l) :=
  ⟨(read_directory_total fsEmpty "/missing").1.mpr rfl,
    (read_directory_total fsA "/r").2.2
      [some ("/r/b.txt", "b.txt"), some ("/r/sub", "sub"),
        some ("/r/a.txt", "a.txt")] rfl⟩

/-- Snapshot holding a directory `/d` whose listing yields a child of
undeterminable type (`/d/sock`), an errored child (the `none` item, skipped
by `.flatten()`), and one regular file. -/
def fsB : Fs where
  isDir := fun _ => false
  isFile := fun p => p == "/d/f"
  readDir := fun p =>
    if p == "/d" then
      some [some ("/d/sock", "sock"), none, some ("/d/f", "f")]
    else none
  read_to_string := fun _ => none

/-- C7: when the directory opens, the read still succeeds whatever the
children are; the resulting entries are exactly (as a multiset) the
classifications of the successfully-yielded children, where a child that
is neither a file nor a directory classifies to nothing — so such children
are silently omitted and produce no error entry. -/
theorem read_directory_skips_unclassifiable (fs : Fs) (p : String)
    (items : List (Option (String × String)))
    (h : fs.readDir p = some items) :
    ∃ l, read_directory fs p = some (p, l) ∧
      l.Perm ((items.filterMap id).filterMap (classifyChild fs)) := by
  refine ⟨List.insertionSort entryLe
    ((items.filterMap id).filterMap (classifyChild fs)), ?_, ?_⟩
  · simp only [read_directory, h, foldl_classify, List.nil_append]
  · exact List.perm_insertionSort entryLe _

/-- Witness for C7: on `fsB` the errored child and the special file are
dropped while the read succeeds. -/
theorem read_directory_skips_unclassifiable_witness :
    ∃ l, read_directory fsB "/d" = some ("/d", l) ∧
      l.Perm ((([some ("/d/sock", "sock"), none,
        some ("/d/f", "f")]).filterMap id).filterMap (classifyChild fsB)) :=
  read_directory_skips_unclassifiable fsB "/d"
    [some ("/d/sock", "sock"), none, some ("/d/f", "f")] rfl

/-- C8: `read_file` returns `none` exactly when reading-and-decoding
fails, and on success returns the input path paired with the full decoded
contents. -/
theorem read_file_contract (fs : Fs) (p : String) :
    (read_file fs p = none ↔ fs.read_to_string p = none) ∧
    (∀ q c, read_file fs p = some (q, c) →
      q = p ∧ fs.read_to_string p = some c) := by
  cases h : fs.read_to_string p <;>
    simp [read_file, h]

/-- Witness for C8: a failing read on the empty snapshot and a successful
read of `/r/a.txt` on `fsA`, obtained from the theorem. -/
theorem read_file_contract_witness :
    read_file fsEmpty "/missing" = none ∧
    ("/r/a.txt" = "/r/a.txt" ∧
      fsA.read_to_string "/r/a.txt" = some "hello") :=
  ⟨(read_file_contract fsEmpty "/missing").1.mpr rfl,
    (read_file_contract fsA "/r/a.txt").2 "/r/a.txt" "hello" rfl⟩

/-- Invariant tying the UI side table to the data: in a `Loaded` state the
button table has exactly one button per entry. -/
def lenInv : State → Prop
  | .Loading _ => True
  | .Loaded _ entries entry_buttons _ _ =>
    entry_buttons.length = entries.length

/-- Run of the state machine: deliver a list of messages in order,
keeping only the state component. -/
def run (fs : Fs) (s : State) (msgs : List Message) : State :=
  msgs.foldl (fun s m => (State.update fs s m).1) s

theorem lenInv_update (fs : Fs) (s : State) (m : Message) (h : lenInv s) :
    lenInv (State.update fs s m).1 := by
  cases m with
  | ChangeDirectory p =>
    simp only [State.update]
    split <;> exact h
  | DirectoryRead r =>
    cases r with
    | none => exact h
    | some dr =>
      obtain ⟨D, E⟩ := dr
      simp [State.update, lenInv]
  | ReadFile p =>
    simp only [State.update]
    split <;> exact h
  | FileRead r =>
    cases r with
    | none => exact h
    | some pc =>
      obtain ⟨p', c⟩ := pc
      exact h
  | RefreshDirectory =>
    cases s with
    | Loading p => exact h
    | Loaded d es bs ub sc => exact h

theorem lenInv_run (fs : Fs) :
    ∀ (msgs : List Message) (s : State), lenInv s → lenInv (run fs s msgs)
  | [], _, h => h
  | m :: msgs, s, h => lenInv_run fs msgs _ (lenInv_update fs s m h)

/-- C9: starting from the seeded `Loading` state, after any sequence of
messages a `Loaded` state always carries as many entry buttons as entries;
moreover whenever `entries` is replaced (the `DirectoryRead Some` case)
the button table is rebuilt fresh with one new button per entry. -/
theorem entry_buttons_match_entries (fs : Fs) (p : String)
    (msgs : List Message) :
    lenInv (run fs (.Loading p) msgs) ∧
    ∀ s D E, (State.update fs s (.DirectoryRead (some (D, E)))).1 =
      .Loaded D E (List.replicate E.length ButtonState.new) ButtonState.new
        ScrollState.new :=
  ⟨lenInv_run fs msgs _ True.intro, fun _ _ _ => rfl⟩

/-- Discriminator for the `Loaded` variant of `State`. -/
def State.isLoaded : State → Bool
  | .Loading _ => false
  | .Loaded _ _ _ _ _ => true

/-- C10: once `Loaded`, always `Loaded` — no message ever returns the
state machine to `Loading`. -/
theorem loaded_is_absorbing (fs : Fs) (s : State) (m : Message)
    (h : s.isLoaded = true) : ((State.update fs s m).1).isLoaded = true := by
  cases m with
  | ChangeDirectory p =>
    simp only [State.update]
    split <;> exact h
  | DirectoryRead r =>
    cases r with
    | none => exact h
    | some dr =>
      obtain ⟨D, E⟩ := dr
      rfl
  | ReadFile p =>
    simp only [State.update]
    split <;> exact h
  | FileRead r =>
    cases r with
    | none => exact h
    | some pc =>
      obtain ⟨p', c⟩ := pc
      exact h
  | RefreshDirectory =>
    cases s with
    | Loading d => exact h
    | Loaded d es bs ub sc => exact h

/-- Witness for C10: a concrete `Loaded` state stays `Loaded` across a
`RefreshDirectory` tick. -/
theorem loaded_is_absorbing_witness :
    ((State.update fsA
      (.Loaded "/r" [] [] ButtonState.new ScrollState.new)
      .RefreshDirectory).1).isLoaded = true :=
  loaded_is_absorbing fsA
    (.Loaded "/r" [] [] ButtonState.new ScrollState.new) .RefreshDirectory
    rfl

end nav_tree
